import Mathlib

/-!
Shallow embedding of the RXR protocol-engine header
(`src/prov/efa/src/rdm/rxr.h`) of the libfabric EFA provider, together
with theorems checking the natural-language specification against it.

Machine integers are modelled as `Nat` (the C values involved are
unsigned 64-bit flag words and small non-negative counters) or `Int`
where the C type is signed; overflow is made explicit where it matters.
Pointers that the code only tests for NULL become `Option`; intrusive
`dlist` memberships become explicit booleans plus, for the queued-packet
chain, an explicit list of held packets.
-/

/-! ## Constants from rxr.h -/

/-- `BIT_ULL(n)`: bit `n` of an `unsigned long long`. -/
def BIT_ULL (n : Nat) : Nat := 1 <<< n

/-- `INT_MAX` for a 32-bit signed int, as in `<limits.h>`. -/
def INT_MAX : Nat := 2147483647

/-- Default value for `rxr_env.rnr_backoff_wait_time_cap`. -/
def RXR_DEFAULT_RNR_BACKOFF_WAIT_TIME_CAP : Nat := 1000000

/-- Maximum value for `rxr_env.rnr_backoff_wait_time_cap`; C integer
division truncates, so this is `INT_MAX/2 - 1` with `/` truncating. -/
def RXR_MAX_RNR_BACKOFF_WAIT_TIME_CAP : Nat := INT_MAX / 2 - 1

/-- Lower bound for the random RNR backoff timeout. -/
def RXR_RAND_MIN_TIMEOUT : Nat := 40

/-- Upper bound for the random RNR backoff timeout. -/
def RXR_RAND_MAX_TIMEOUT : Nat := 120

/-- Flag: an op entry has queued RNR packets. -/
def RXR_OP_ENTRY_QUEUED_RNR : Nat := BIT_ULL 9

/-- Flag: an rx entry has an EOR in flight. -/
def RXR_EOR_IN_FLIGHT : Nat := BIT_ULL 10

/-- Flag: a tx entry has already written a cq error entry for RNR. -/
def RXR_TX_ENTRY_WRITTEN_RNR_CQ_ERR_ENTRY : Nat := BIT_ULL 10

/-- Flag: an op entry has a queued ctrl packet and is on
`ep->op_entry_queued_ctrl_list`. -/
def RXR_OP_ENTRY_QUEUED_CTRL : Nat := BIT_ULL 11

/-- RM flag: the transmit completion queue is full. -/
def RXR_RM_TX_CQ_FULL : Nat := BIT_ULL 0

/-- RM flag: the receive completion queue is full. -/
def RXR_RM_RX_CQ_FULL : Nat := BIT_ULL 1

/-- Capacity of the queued-copy vector `queued_copy_vec`. -/
def RXR_EP_MAX_QUEUED_COPY : Nat := 8

/-- All 64 bits of a `uint64_t` set; used to model C's `~` on flag
masks, since `ep->rm_full` is a `uint64_t`. -/
def UINT64_MASK : Nat := 2 ^ 64 - 1

/-! ## Resource-management checks

`ep->rm_full` is a `uint64_t` flag word. `rxr_rm_rx_cq_check` and
`rxr_rm_tx_cq_check` each take the completion queue's lock, test
`ofi_cirque_isfull` on the queue's circular buffer, and set or clear
their own bit of `rm_full` accordingly. We model the flag word as a
`Nat` below `2^64` and the fullness test's outcome as a `Bool`; the
lock acquisition and release bracket the whole body and are not part
of the computed value. -/

/-- `rxr_rm_rx_cq_check`: recompute the RX-CQ-full bit of `rm_full`
from the queue's fullness. `~RXR_RM_RX_CQ_FULL` on a `uint64_t` is
`UINT64_MASK ^^^ RXR_RM_RX_CQ_FULL`. -/
def rxr_rm_rx_cq_check (rm_full : Nat) (rx_cq_is_full : Bool) : Nat :=
  if rx_cq_is_full then
    rm_full ||| RXR_RM_RX_CQ_FULL
  else
    rm_full &&& (UINT64_MASK ^^^ RXR_RM_RX_CQ_FULL)

/-- `rxr_rm_tx_cq_check`: recompute the TX-CQ-full bit of `rm_full`
from the queue's fullness. -/
def rxr_rm_tx_cq_check (rm_full : Nat) (tx_cq_is_full : Bool) : Nat :=
  if tx_cq_is_full then
    rm_full ||| RXR_RM_TX_CQ_FULL
  else
    rm_full &&& (UINT64_MASK ^^^ RXR_RM_TX_CQ_FULL)

/-- `is_tx_res_full`: nonzero iff the TX-CQ-full bit of `rm_full` is
set. -/
def is_tx_res_full (rm_full : Nat) : Nat :=
  rm_full &&& RXR_RM_TX_CQ_FULL

/-- `is_rx_res_full`: nonzero iff the RX-CQ-full bit of `rm_full` is
set. -/
def is_rx_res_full (rm_full : Nat) : Nat :=
  rm_full &&& RXR_RM_RX_CQ_FULL

/-! ## Operation-entry release (`rxr_release_rx_entry`)

An `rxr_op_entry` used as an rx entry carries: a `peer` pointer (NULL
until the entry is bound to a peer), an intrusive `peer_entry` node on
the peer's rx-entry list, an intrusive `ep_entry` node on the
endpoint's `rx_entry_list`, a `queued_pkts` dlist of packet entries
still held, an intrusive `queued_rnr_entry` node on
`ep->op_entry_queued_rnr_list`, an intrusive `queued_ctrl_entry` node
on `ep->op_entry_queued_ctrl_list`, a `rxr_flags` word and a `state`.
We model each intrusive membership as a `Bool` (linked into the
corresponding list or not) and `queued_pkts` as the list of held
packet identifiers. -/

/-- The op-entry states used by `rxr_release_rx_entry`
(`rx_entry->state = RXR_OP_FREE`). -/
inductive RxrOpState where
  | RXR_OP_FREE
  | RXR_OP_INUSE
  deriving DecidableEq, Repr

/-- The fields of `struct rxr_op_entry` that `rxr_release_rx_entry`
reads or writes. -/
structure RxrOpEntry where
  peer : Option Nat
  onPeerList : Bool
  onEpList : Bool
  queued_pkts : List Nat
  onQueuedRnrList : Bool
  onQueuedCtrlList : Bool
  rxr_flags : Nat
  state : RxrOpState
  deriving DecidableEq, Repr

/-- Number of lists an op entry is currently linked into. -/
def RxrOpEntry.membershipCount (e : RxrOpEntry) : Nat :=
  (cond e.onPeerList 1 0) + (cond e.onEpList 1 0) +
    (cond e.onQueuedRnrList 1 0) + (cond e.onQueuedCtrlList 1 0)

/-- `rxr_pkt_entry_release_tx`: return a packet entry to the pool.
The pool is modelled as the list of free packet identifiers. -/
def rxr_pkt_entry_release_tx (pool : List Nat) (pkt : Nat) : List Nat :=
  pkt :: pool

/-- Outcome of `rxr_release_rx_entry`: the packet pool after the held
packets are released, and the entry's field values at the moment
`ofi_buf_free` is called on it. -/
structure ReleaseRxResult where
  pool : List Nat
  entry : RxrOpEntry
  deriving Repr

/-- `rxr_release_rx_entry`, one conditional per source statement:
remove `peer_entry` if `peer` is non-NULL; remove `ep_entry`
unconditionally; if `queued_pkts` is non-empty, release each queued
packet via `rxr_pkt_entry_release_tx` and remove `queued_rnr_entry`;
if `RXR_OP_ENTRY_QUEUED_CTRL` is set in `rxr_flags`, remove
`queued_ctrl_entry`; set `state` to `RXR_OP_FREE` and free. The
source's statements execute in order but each condition reads a field
no earlier statement writes, so each final field value is given
directly by its single update site. -/
def rxr_release_rx_entry (pool : List Nat) (rx_entry : RxrOpEntry) :
    ReleaseRxResult :=
  { pool :=
      if rx_entry.queued_pkts ≠ [] then
        rx_entry.queued_pkts.foldl rxr_pkt_entry_release_tx pool
      else pool,
    entry :=
      { rx_entry with
        onPeerList := if rx_entry.peer.isSome then false
                      else rx_entry.onPeerList,
        onEpList := false,
        queued_pkts := if rx_entry.queued_pkts ≠ [] then []
                       else rx_entry.queued_pkts,
        onQueuedRnrList := if rx_entry.queued_pkts ≠ [] then false
                           else rx_entry.onQueuedRnrList,
        onQueuedCtrlList :=
          if rx_entry.rxr_flags &&& RXR_OP_ENTRY_QUEUED_CTRL ≠ 0 then false
          else rx_entry.onQueuedCtrlList,
        state := .RXR_OP_FREE } }

/-! ## Error-queue write (`efa_eq_write_error`) -/

/-- Observable behaviour of `efa_eq_write_error`: whether the call
returned normally, whether the failure diagnostics (the
"Unable to write to EQ" warning and the `stderr` message) were
emitted, and whether the process aborted. -/
structure EqWriteErrorResult where
  returnedNormally : Bool
  emittedFailureDiag : Bool
  aborted : Bool
  deriving DecidableEq, Repr

/-- `efa_eq_write_error`, following the source: if the endpoint has an
event queue (`ep->eq` non-NULL), `fi_eq_write` is attempted and the
function returns normally when its result equals
`sizeof(struct fi_eq_err_entry)`; in every other case the failure
diagnostics are emitted and `abort()` is called. `hasEq` models
`ep->eq != NULL`, `writeResult` the `ssize_t` returned by
`fi_eq_write`, and `entrySize` the value of `sizeof(err_entry)`. -/
def efa_eq_write_error (hasEq : Bool) (writeResult : Int)
    (entrySize : Int) : EqWriteErrorResult :=
  if hasEq then
    if writeResult = entrySize then
      { returnedNormally := true, emittedFailureDiag := false,
        aborted := false }
    else
      { returnedNormally := false, emittedFailureDiag := true,
        aborted := true }
  else
    { returnedNormally := false, emittedFailureDiag := true,
      aborted := true }

/-! ## Debug poisoning (`rxr_poison_mem_region`) -/

/-- The poison sentinel `rxr_poison_value = 0xdeadbeef`. -/
def rxr_poison_value : Nat := 0xdeadbeef

/-- `rxr_poison_mem_region`: the region is viewed through a
`uint32_t *` pointer, so memory is modelled at 4-byte-word
granularity as a function from word index to word value. The loop
runs `i` from `0` to `size / sizeof(uint32_t) - 1` and stores the
sentinel into word `i`. -/
def rxr_poison_mem_region (mem : Nat → Nat) (size : Nat) : Nat → Nat :=
  (List.range (size / 4)).foldl
    (fun m i => Function.update m i rxr_poison_value) mem

/-! ## Queued-copy batching

Only the capacity constant `RXR_EP_MAX_QUEUED_COPY`, the fields
`queued_copy_vec[RXR_EP_MAX_QUEUED_COPY]` / `queued_copy_num` and the
prototype of `rxr_ep_flush_queued_blocking_copy_to_hmem` appear in the
source under verification; the enqueue and flush bodies live in other
translation units. -/

/-- An operation on the queued-copy batch: enqueue one pending copy
description, or flush the accumulated batch (progress-engine step). -/
inductive QueuedCopyOp where
  | enqueue
  | flush
  deriving DecidableEq, Repr

/-- Modelled from the spec: the bodies of the queued-copy enqueue and
flush operations are missing from the source (only the capacity
constant, the vector and counter fields, and the flush prototype are
present). The spec describes a "small, bounded batch (fixed cap) of
pending device-memory copy descriptions" that the engine flushes
together; accordingly, an enqueue on a full batch first flushes it and
then stores the new description, and a flush performs the accumulated
copies and resets the count to zero. The state is `queued_copy_num`. -/
def queuedCopyStep (queued_copy_num : Nat) : QueuedCopyOp → Nat
  | .enqueue =>
      if queued_copy_num = RXR_EP_MAX_QUEUED_COPY then 1
      else queued_copy_num + 1
  | .flush => 0

/-- Run a sequence of queued-copy operations from the initial state
(`queued_copy_num = 0` on endpoint creation). -/
def queuedCopyRun (ops : List QueuedCopyOp) : Nat :=
  ops.foldl queuedCopyStep 0

/-- The index into `queued_copy_vec` at which an enqueue in state
`queued_copy_num` writes its copy description: after a forced flush of
a full batch the write goes to slot 0, otherwise to slot
`queued_copy_num`. -/
def queuedCopyWriteIndex (queued_copy_num : Nat) : Nat :=
  if queued_copy_num = RXR_EP_MAX_QUEUED_COPY then 0 else queued_copy_num

/-! ## Peer-to-peer decision (`rxr_ep_use_p2p`) -/

/-- `FI_ENOSYS` from `fi_errno.h` (function not implemented). -/
def FI_ENOSYS : Int := 38

/-- The `fi_hmem_iface` memory interfaces; `system` is
`FI_HMEM_SYSTEM` (host memory). -/
inductive FiHmemIface where
  | system
  | cuda
  | rocr
  | ze
  | neuron
  | synapseai
  deriving DecidableEq, Repr

/-- The `FI_OPT_FI_HMEM_P2P` option values stored in
`rxr_ep->hmem_p2p_opt`. -/
inductive FiHmemP2pOpt where
  | enabled
  | required
  | preferred
  | disabled
  deriving DecidableEq, Repr

/-- The part of `struct efa_mr` that `rxr_ep_use_p2p` reads: the
memory interface of the registered region (`efa_mr->peer.iface`). -/
structure EfaMr where
  iface : FiHmemIface
  deriving DecidableEq, Repr

/-- The part of the rxr endpoint and its domain that `rxr_ep_use_p2p`
reads: the endpoint's p2p option and, per memory interface, the
domain's `hmem_info[iface].p2p_supported_by_device`. -/
structure RxrEpP2p where
  hmem_p2p_opt : FiHmemP2pOpt
  p2p_supported_by_device : FiHmemIface → Bool

/-- `rxr_ep_use_p2p`, following the source: NULL registration returns
0; host memory (`FI_HMEM_SYSTEM`) returns 1; if the device supports
p2p for the interface, return `hmem_p2p_opt != FI_HMEM_P2P_DISABLED`
as 0/1; otherwise return `-FI_ENOSYS` when p2p is required and 0 when
it is not. -/
def rxr_ep_use_p2p (rxr_ep : RxrEpP2p) (efa_mr : Option EfaMr) : Int :=
  match efa_mr with
  | none => 0
  | some mr =>
    if mr.iface = FiHmemIface.system then 1
    else if rxr_ep.p2p_supported_by_device mr.iface then
      (if rxr_ep.hmem_p2p_opt ≠ FiHmemP2pOpt.disabled then 1 else 0)
    else if rxr_ep.hmem_p2p_opt = FiHmemP2pOpt.required then
      -FI_ENOSYS
    else 0

/-! ## Helper lemmas -/

theorem release_tx_foldl_length (pkts pool : List Nat) :
    (pkts.foldl rxr_pkt_entry_release_tx pool).length
      = pool.length + pkts.length := by
  induction pkts generalizing pool with
  | nil => simp
  | cons a l ih =>
      simp only [List.foldl_cons, rxr_pkt_entry_release_tx, ih,
        List.length_cons]
      omega

theorem release_tx_foldl_mem_of_pool (pkts pool : List Nat) (p : Nat)
    (hp : p ∈ pool) : p ∈ pkts.foldl rxr_pkt_entry_release_tx pool := by
  induction pkts generalizing pool with
  | nil => simpa using hp
  | cons a l ih =>
      simp only [List.foldl_cons]
      exact ih (rxr_pkt_entry_release_tx pool a)
        (List.mem_cons_of_mem a hp)

theorem release_tx_foldl_mem (pkts pool : List Nat) (p : Nat)
    (hp : p ∈ pkts) : p ∈ pkts.foldl rxr_pkt_entry_release_tx pool := by
  induction pkts generalizing pool with
  | nil => cases hp
  | cons a l ih =>
      rcases List.mem_cons.mp hp with rfl | hp
      · simp only [List.foldl_cons]
        exact release_tx_foldl_mem_of_pool l _ p
          (List.mem_cons_self p pool)
      · simp only [List.foldl_cons]
        exact ih _ hp

theorem poison_foldl (mem : Nat → Nat) (n j : Nat) :
    ((List.range n).foldl
        (fun m i => Function.update m i rxr_poison_value) mem) j
      = if j < n then rxr_poison_value else mem j := by
  induction n with
  | zero => simp
  | succ k ih =>
      rw [List.range_succ, List.foldl_append, List.foldl_cons,
        List.foldl_nil, Function.update_apply, ih]
      split_ifs <;> first | rfl | omega

theorem queuedCopyFoldl_le (ops : List QueuedCopyOp) (n : Nat)
    (hn : n ≤ RXR_EP_MAX_QUEUED_COPY) :
    ops.foldl queuedCopyStep n ≤ RXR_EP_MAX_QUEUED_COPY := by
  induction ops generalizing n with
  | nil => simpa using hn
  | cons op l ih =>
      simp only [List.foldl_cons]
      apply ih
      cases op with
      | enqueue =>
          simp only [queuedCopyStep, RXR_EP_MAX_QUEUED_COPY] at *
          split_ifs <;> omega
      | flush =>
          simp [queuedCopyStep]

/-! ## Claim theorems -/

/-- C4: the RNR backoff wait-time cap `RXR_MAX_RNR_BACKOFF_WAIT_TIME_CAP`
equals `INT_MAX/2 - 1`, which is strictly below `INT_MAX/2`; the
default cap (1000000) does not exceed the maximum cap; and doubling
any backoff value that respects the cap stays within `INT_MAX`, so it
cannot overflow a signed int. -/
theorem rnr_backoff_cap_no_overflow (v : Nat)
    (hv : v ≤ RXR_MAX_RNR_BACKOFF_WAIT_TIME_CAP) :
    RXR_MAX_RNR_BACKOFF_WAIT_TIME_CAP = INT_MAX / 2 - 1 ∧
    RXR_MAX_RNR_BACKOFF_WAIT_TIME_CAP < INT_MAX / 2 ∧
    RXR_DEFAULT_RNR_BACKOFF_WAIT_TIME_CAP
      ≤ RXR_MAX_RNR_BACKOFF_WAIT_TIME_CAP ∧
    2 * v ≤ INT_MAX := by
  refine ⟨rfl, by decide, by decide, ?_⟩
  have h : v ≤ 1073741822 := by
    simpa [RXR_MAX_RNR_BACKOFF_WAIT_TIME_CAP, INT_MAX] using hv
  simp only [INT_MAX]
  omega

/-- Witness for C4 at the default cap value. -/
theorem rnr_backoff_cap_no_overflow_witness :
    RXR_DEFAULT_RNR_BACKOFF_WAIT_TIME_CAP
      ≤ RXR_MAX_RNR_BACKOFF_WAIT_TIME_CAP ∧
    2 * RXR_DEFAULT_RNR_BACKOFF_WAIT_TIME_CAP ≤ INT_MAX :=
  ⟨by decide,
   (rnr_backoff_cap_no_overflow RXR_DEFAULT_RNR_BACKOFF_WAIT_TIME_CAP
      (by decide)).2.2.2⟩

/-- C8: the random RNR backoff timeout bounds are the fixed constants
40 and 120, and the lower bound is strictly below the upper bound, so
the randomization interval is non-empty and any value drawn between
them lies within the configured bounds. -/
theorem rand_timeout_bounds_well_formed :
    RXR_RAND_MIN_TIMEOUT = 40 ∧ RXR_RAND_MAX_TIMEOUT = 120 ∧
    RXR_RAND_MIN_TIMEOUT < RXR_RAND_MAX_TIMEOUT := by
  decide

/-- C9: `RXR_EOR_IN_FLIGHT` and
`RXR_TX_ENTRY_WRITTEN_RNR_CQ_ERR_ENTRY` are both `BIT_ULL(10)`, so on
any flag word the two conditions test the same bit and cannot be
distinguished without knowing the entry's role. -/
theorem eor_flag_aliases_rnr_err_flag :
    RXR_EOR_IN_FLIGHT = RXR_TX_ENTRY_WRITTEN_RNR_CQ_ERR_ENTRY ∧
    RXR_EOR_IN_FLIGHT = BIT_ULL 10 ∧
    ∀ flags : Nat,
      (flags &&& RXR_EOR_IN_FLIGHT ≠ 0 ↔
       flags &&& RXR_TX_ENTRY_WRITTEN_RNR_CQ_ERR_ENTRY ≠ 0) :=
  ⟨rfl, rfl, fun _ => Iff.rfl⟩

/-- C2: each resource-management check recomputes only its own
direction's sticky flag: after `rxr_rm_rx_cq_check` the RX-CQ-full bit
(bit 1) of `rm_full` equals the queue's fullness and the TX-CQ-full
bit (bit 0) is unchanged; symmetrically for `rxr_rm_tx_cq_check`. -/
theorem rm_cq_check_recomputes_own_bit (rm_full : Nat) (full : Bool) :
    ((rxr_rm_rx_cq_check rm_full full).testBit 1 = full ∧
     (rxr_rm_rx_cq_check rm_full full).testBit 0 = rm_full.testBit 0) ∧
    ((rxr_rm_tx_cq_check rm_full full).testBit 0 = full ∧
     (rxr_rm_tx_cq_check rm_full full).testBit 1 = rm_full.testBit 1) := by
  cases full <;>
    simp only [rxr_rm_rx_cq_check, rxr_rm_tx_cq_check,
      Bool.false_eq_true, if_false, if_true, Nat.testBit_or,
      Nat.testBit_and,
      show Nat.testBit RXR_RM_RX_CQ_FULL 1 = true by decide,
      show Nat.testBit RXR_RM_RX_CQ_FULL 0 = false by decide,
      show Nat.testBit RXR_RM_TX_CQ_FULL 0 = true by decide,
      show Nat.testBit RXR_RM_TX_CQ_FULL 1 = false by decide,
      show Nat.testBit (UINT64_MASK ^^^ RXR_RM_RX_CQ_FULL) 1 = false
        by decide,
      show Nat.testBit (UINT64_MASK ^^^ RXR_RM_RX_CQ_FULL) 0 = true
        by decide,
      show Nat.testBit (UINT64_MASK ^^^ RXR_RM_TX_CQ_FULL) 0 = false
        by decide,
      show Nat.testBit (UINT64_MASK ^^^ RXR_RM_TX_CQ_FULL) 1 = true
        by decide,
      Bool.and_false, Bool.and_true, Bool.or_false, Bool.or_true,
      and_self]

/-- C5: the backpressure predicates are independent:
`is_tx_res_full` is nonzero exactly when the `RXR_RM_TX_CQ_FULL` bit
(bit 0) of `rm_full` is set, and `is_rx_res_full` is nonzero exactly
when the `RXR_RM_RX_CQ_FULL` bit (bit 1) is set. -/
theorem res_full_predicates_independent (rm_full : Nat) :
    (is_tx_res_full rm_full ≠ 0 ↔ rm_full.testBit 0 = true) ∧
    (is_rx_res_full rm_full ≠ 0 ↔ rm_full.testBit 1 = true) := by
  constructor
  · have h : is_tx_res_full rm_full
        = (rm_full.testBit 0).toNat * 2 ^ 0 := by
      rw [is_tx_res_full, show RXR_RM_TX_CQ_FULL = 2 ^ 0 by decide,
        Nat.and_two_pow]
    rw [h]
    cases hb : rm_full.testBit 0 <;> simp
  · have h : is_rx_res_full rm_full
        = (rm_full.testBit 1).toNat * 2 ^ 1 := by
      rw [is_rx_res_full, show RXR_RM_RX_CQ_FULL = 2 ^ 1 by decide,
        Nat.and_two_pow]
    rw [h]
    cases hb : rm_full.testBit 1 <;> simp

/-- C3: `efa_eq_write_error` returns normally exactly when an event
queue is attached and the write returns the full entry size; it aborts
exactly when it does not return normally; and the failure diagnostics
are emitted exactly on the aborting paths (including the path where no
event queue is attached). -/
theorem eq_write_error_normal_iff (hasEq : Bool)
    (writeResult entrySize : Int) :
    ((efa_eq_write_error hasEq writeResult entrySize).returnedNormally
        = true ↔ hasEq = true ∧ writeResult = entrySize) ∧
    (efa_eq_write_error hasEq writeResult entrySize).aborted
      = !(efa_eq_write_error hasEq writeResult
          entrySize).returnedNormally ∧
    (efa_eq_write_error hasEq writeResult entrySize).emittedFailureDiag
      = (efa_eq_write_error hasEq writeResult entrySize).aborted := by
  cases hasEq <;> by_cases h : writeResult = entrySize <;>
    simp [efa_eq_write_error, h]

/-- C1: under the invariants the code relies on (a peer-list
membership implies a non-NULL `peer`, a queued-RNR-list membership
implies a non-empty `queued_pkts`, and a queued-ctrl-list membership
implies the `RXR_OP_ENTRY_QUEUED_CTRL` flag), `rxr_release_rx_entry`
removes every list membership, releases every held queued packet back
to the pool, and marks the entry free: at the moment of release the
membership count across every list is zero. -/
theorem release_rx_entry_clears_memberships (pool : List Nat)
    (e : RxrOpEntry)
    (hpeer : e.onPeerList = true → e.peer.isSome = true)
    (hrnr : e.onQueuedRnrList = true → e.queued_pkts ≠ [])
    (hctrl : e.onQueuedCtrlList = true →
      e.rxr_flags &&& RXR_OP_ENTRY_QUEUED_CTRL ≠ 0) :
    (rxr_release_rx_entry pool e).entry.membershipCount = 0 ∧
    (rxr_release_rx_entry pool e).entry.queued_pkts = [] ∧
    (rxr_release_rx_entry pool e).entry.state = RxrOpState.RXR_OP_FREE ∧
    (rxr_release_rx_entry pool e).pool.length
      = pool.length + e.queued_pkts.length ∧
    ∀ p ∈ e.queued_pkts, p ∈ (rxr_release_rx_entry pool e).pool := by
  obtain ⟨peer, onP, onE, pkts, onR, onC, flags, st⟩ := e
  simp only [rxr_release_rx_entry, RxrOpEntry.membershipCount] at *
  refine ⟨?_, ?_, ?_, ?_, ?_⟩
  · split_ifs <;> simp_all
  · split_ifs <;> simp_all
  · trivial
  · split_ifs with h
    · exact release_tx_foldl_length pkts pool
    · simp_all
  · intro p hp
    split_ifs with h
    · exact release_tx_foldl_mem pkts pool p hp
    · simp_all

/-- Witness for C1: an entry on all four lists with two queued
packets is released with zero remaining memberships and both packets
back in the pool. -/
theorem release_rx_entry_clears_memberships_witness :
    (rxr_release_rx_entry [1, 2]
      { peer := some 7, onPeerList := true, onEpList := true,
        queued_pkts := [3, 4], onQueuedRnrList := true,
        onQueuedCtrlList := true,
        rxr_flags := RXR_OP_ENTRY_QUEUED_CTRL,
        state := RxrOpState.RXR_OP_INUSE }).entry.membershipCount = 0 ∧
    (rxr_release_rx_entry [1, 2]
      { peer := some 7, onPeerList := true, onEpList := true,
        queued_pkts := [3, 4], onQueuedRnrList := true,
        onQueuedCtrlList := true,
        rxr_flags := RXR_OP_ENTRY_QUEUED_CTRL,
        state := RxrOpState.RXR_OP_INUSE }).pool.length = 2 + 2 := by
  have h := release_rx_entry_clears_memberships [1, 2]
    { peer := some 7, onPeerList := true, onEpList := true,
      queued_pkts := [3, 4], onQueuedRnrList := true,
      onQueuedCtrlList := true,
      rxr_flags := RXR_OP_ENTRY_QUEUED_CTRL,
      state := RxrOpState.RXR_OP_INUSE }
    (by decide) (by decide) (by decide)
  exact ⟨h.1, h.2.2.2.1⟩

/-- C6: `rxr_poison_mem_region` overwrites every complete 4-byte word
within the first `size / 4` words of the region with the sentinel
`0xdeadbeef`, leaves words beyond that untouched, and when `size` is a
multiple of 4 it covers every word of the region. -/
theorem poison_mem_region_sets_sentinel (mem : Nat → Nat)
    (size i : Nat) :
    (i < size / 4 → rxr_poison_mem_region mem size i
      = rxr_poison_value) ∧
    (¬ i < size / 4 → rxr_poison_mem_region mem size i = mem i) ∧
    (size % 4 = 0 → 4 * i < size → rxr_poison_mem_region mem size i
      = rxr_poison_value) := by
  have h : rxr_poison_mem_region mem size i
      = if i < size / 4 then rxr_poison_value else mem i := by
    rw [rxr_poison_mem_region, poison_foldl]
  refine ⟨fun hi => ?_, fun hi => ?_, fun hm hi => ?_⟩
  · rw [h, if_pos hi]
  · rw [h, if_neg hi]
  · rw [h, if_pos (by omega)]

/-- Witness for C6: poisoning an 8-byte region sets word 1 to the
sentinel. -/
theorem poison_mem_region_sets_sentinel_witness :
    1 < 8 / 4 ∧
    rxr_poison_mem_region (fun _ => 0) 8 1 = rxr_poison_value :=
  ⟨by decide,
   (poison_mem_region_sets_sentinel (fun _ => 0) 8 1).1 (by decide)⟩

/-- C7: from the initial state, every sequence of enqueue and flush
operations on the queued-copy batch keeps `queued_copy_num` at or
below `RXR_EP_MAX_QUEUED_COPY` (8), and the `queued_copy_vec` slot an
enqueue would write next is strictly below the capacity, so every
vector access stays in bounds. -/
theorem queued_copy_num_bounded (ops : List QueuedCopyOp) :
    queuedCopyRun ops ≤ RXR_EP_MAX_QUEUED_COPY ∧
    queuedCopyWriteIndex (queuedCopyRun ops)
      < RXR_EP_MAX_QUEUED_COPY := by
  have h : queuedCopyRun ops ≤ RXR_EP_MAX_QUEUED_COPY :=
    queuedCopyFoldl_le ops 0 (by decide)
  refine ⟨h, ?_⟩
  rw [queuedCopyWriteIndex]
  split_ifs with hf
  · decide
  · simp only [RXR_EP_MAX_QUEUED_COPY] at h hf ⊢
    omega

/-- C10: `rxr_ep_use_p2p` returns 0 on a NULL memory registration;
returns 1 for host memory (`FI_HMEM_SYSTEM`) regardless of the
endpoint's p2p option; and returns `-FI_ENOSYS` only when the
endpoint's option is `FI_HMEM_P2P_REQUIRED` and the device does not
support p2p for the registration's memory interface. -/
theorem use_p2p_cases (ep : RxrEpP2p) (mr : EfaMr) :
    rxr_ep_use_p2p ep none = 0 ∧
    (mr.iface = FiHmemIface.system →
      rxr_ep_use_p2p ep (some mr) = 1) ∧
    (rxr_ep_use_p2p ep (some mr) = -FI_ENOSYS →
      ep.hmem_p2p_opt = FiHmemP2pOpt.required ∧
      ep.p2p_supported_by_device mr.iface = false) := by
  refine ⟨rfl, ?_, ?_⟩
  · intro h
    simp [rxr_ep_use_p2p, h]
  · intro h
    by_cases hs : mr.iface = FiHmemIface.system
    · simp [rxr_ep_use_p2p, hs, FI_ENOSYS] at h
    · by_cases hd : ep.p2p_supported_by_device mr.iface
      · by_cases ho : ep.hmem_p2p_opt = FiHmemP2pOpt.disabled <;>
          simp [rxr_ep_use_p2p, hs, hd, ho, FI_ENOSYS] at h
      · by_cases ho : ep.hmem_p2p_opt = FiHmemP2pOpt.required
        · exact ⟨ho, by simp [hd]⟩
        · simp [rxr_ep_use_p2p, hs, hd, ho, FI_ENOSYS] at h

/-- Witness for C10: a p2p-required endpoint without device support
for CUDA memory gets `-FI_ENOSYS`, and the theorem recovers the two
conditions. -/
theorem use_p2p_cases_witness :
    FiHmemP2pOpt.required = FiHmemP2pOpt.required ∧
    (fun _ : FiHmemIface => false) FiHmemIface.cuda = false :=
  (use_p2p_cases
    { hmem_p2p_opt := FiHmemP2pOpt.required,
      p2p_supported_by_device := fun _ => false }
    { iface := FiHmemIface.cuda }).2.2 (by decide)
